import Mathlib

/-!
Verification of the `awsimages` provider (`src/provider/awsimages/aws.go`)
of the `images` repository.

The Go code is shallowly embedded:
* an EC2 image is a record carrying its identifier and creation timestamp;
* each regional `svc.DescribeImages(input)` network call is abstracted as
  an oracle `describe : Region → Except Err (List Image)` giving, per
  region, either the image list of the response or the provider error;
* the concurrent fan-out of `MultiImages` is serialized: the critical
  section of every goroutine (the mutex-guarded block writing `images` and
  `multiErrors`) runs atomically, so the overall effect is a fold of the
  per-region collection step over the region set; the claims proved below
  (key counts, membership, error counts) are insensitive to the completion
  order of the goroutines;
* the Go map `images` becomes an association list whose keys are the
  distinct regions; the `go-multierror` accumulator becomes the list of
  appended errors (`nil` ↔ `[]`, constituent count ↔ length);
* fallible construction (`New`) returns `Except`.
-/

namespace Awsimages

/-- A provider region identifier (the keys of `multiRegion.regions`). -/
abbrev Region := String

/-- An opaque provider error, as returned by `svc.DescribeImages`. -/
abbrev Err := String

/-- An EC2 image record (`ec2.Image`), reduced to the fields the core
reads: the identifier and the creation timestamp. -/
structure Image where
  imageId : String
  creationDate : Nat
deriving Repr, DecidableEq

/-- Modelled from the spec: the `byTime` sort order is not under `src/`
(only its invocation `sort.Sort(byTime(resp.Images))` is); the spec states
"ascending sort by creation timestamp" ("sort from oldest to newest"). -/
def timeLe (a b : Image) : Prop := a.creationDate ≤ b.creationDate

instance : DecidableRel timeLe := fun a b => Nat.decLe a.creationDate b.creationDate

instance : IsTotal Image timeLe := ⟨fun a b => Nat.le_total a.creationDate b.creationDate⟩

instance : IsTrans Image timeLe := ⟨fun _ _ _ hab hbc => Nat.le_trans hab hbc⟩

/-- `sort.Sort(byTime(resp.Images))`: sort the image list of one region
ascending by creation timestamp (the Go standard-library comparison sort,
modelled as a comparison sort over the same order; the source guarantees
no stable tie-break). -/
def sortByTime (l : List Image) : List Image := l.insertionSort timeLe

/-- The success branch of a fan-out goroutine, lines 85-90 of aws.go:
sort the images of the response from oldest to newest when there are more
than one, otherwise leave the list untouched. -/
def processRegionImages (l : List Image) : List Image :=
  if 1 < l.length then sortByTime l else l

/-- The mutex-guarded body of one fan-out goroutine (lines 80-93 of
aws.go), acting on the shared state `(images, multiErrors)`: on error,
append the provider error as returned into the accumulator
(`multierror.Append(multiErrors, err)`); on success, store the
(possibly sorted) image list under the region key. -/
def collectRegion (describe : Region → Except Err (List Image))
    (st : List (Region × List Image) × List Err) (region : Region) :
    List (Region × List Image) × List Err :=
  match describe region with
  | .error e => (st.1, st.2 ++ [e])
  | .ok imgs => (st.1 ++ [(region, processRegionImages imgs)], st.2)

/-- `AwsImages.MultiImages` (lines 66-101 of aws.go), with the critical
sections of the goroutines serialized: starting from a freshly made empty map
(`images := make(map[string][]*ec2.Image)`) and a nil error accumulator,
fold the per-region collection step over the regions of the registry, and
return the accumulated map together with the accumulated errors after the
`wg.Wait()` barrier. -/
def MultiImages (describe : Region → Except Err (List Image))
    (regions : List Region) : List (Region × List Image) × List Err :=
  regions.foldl (collectRegion describe) ([], [])

/-- The regional client registry (`multiRegion`): the set of regions for
which a client handle exists, i.e. the keys of `services.regions`. The
client handles themselves act only through the `describe` oracle. -/
structure MultiRegionReg where
  regions : List Region
deriving Repr, DecidableEq

/-- The `AwsImages` receiver: the regional client registry and the
`images` cache field. -/
structure AwsImagesSt where
  services : MultiRegionReg
  images : List (Region × List Image)
deriving Repr, DecidableEq

/-- The method `(a *AwsImages) MultiImages` with the receiver passed
explicitly: the body reads only `a.services.regions`, writes no field of
the receiver, and returns a result built from a fresh empty map, so the
state-passing embedding returns the receiver unchanged alongside the
result of the fan-out. -/
def AwsImagesSt.multiImagesM (describe : Region → Except Err (List Image))
    (a : AwsImagesSt) :
    AwsImagesSt × (List (Region × List Image) × List Err) :=
  (a, MultiImages describe a.services.regions)

/-- The `AwsConfig` structure (lines 17-22 of aws.go). -/
structure AwsConfig where
  region : String
  regionExclude : String
  accessKey : String
  secretKey : String
deriving Repr, DecidableEq

/-- The suffix shared by all three configuration errors of `New`. -/
def checkCfg : String := "Please check your configuration"

/-- `New(conf)` (lines 30-64 of aws.go). The construction of the regional
client registry (`newMultiRegion(awsCfg, parseRegions(...))`, not under
`src/`) is abstracted as the parameter `buildRegistry`, invoked only after
all three configuration checks pass; the fresh `images` map is empty. -/
def New (buildRegistry : AwsConfig → MultiRegionReg) (conf : AwsConfig) :
    Except String AwsImagesSt :=
  if conf.region = "" then
    .error ("AWS Region is not set. " ++ checkCfg)
  else if conf.accessKey = "" then
    .error ("AWS Access Key is not set. " ++ checkCfg)
  else if conf.secretKey = "" then
    .error ("AWS Secret Key is not set. " ++ checkCfg)
  else
    .ok { services := buildRegistry conf, images := [] }

/-- The `global` options block of `Help` (lines 115-120 of aws.go),
appended to the help text of every known command. -/
def globalHelp : String :=
  "\n  -access-key      \"...\"       AWS Access Key (env: IMAGES_AWS_ACCESS_KEY)\n  -secret-key      \"...\"       AWS Secret Key (env: IMAGES_AWS_SECRET_KEY)\n  -region          \"...\"       AWS Region (env: IMAGES_AWS_REGION)\n  -region-exclude  \"...\"       AWS Region to be excluded (env: IMAGES_AWS_REGION_EXCLUDE)\n"

/-- The literal `list` help text (lines 127-132 of aws.go). -/
def listHelp : String :=
  "Usage: images list --provider aws [options]\n\n List AMI properties.\n\nOptions:\n\t"

/-- `(a *AwsImages) Help(command)` (lines 112-141 of aws.go). The help
messages of the `modify`, `delete` and `copy` flag sets
(`newModifyFlags().helpMsg` etc., not under `src/`) are abstracted as
parameters. The `switch` assigns the text of the verb to `help`; the default
case returns the literal unknown-command string before `help += global`
runs; the text of every known verb has `global` appended. -/
def Help (modifyMsg deleteMsg copyMsg : String) (command : String) : String :=
  if command = "modify" then modifyMsg ++ globalHelp
  else if command = "delete" then deleteMsg ++ globalHelp
  else if command = "list" then listHelp ++ globalHelp
  else if command = "copy" then copyMsg ++ globalHelp
  else "no help found for command " ++ command

/-! ## Characterization of the fan-out fold -/

/-- The map entry contributed by one region: present exactly when the
regional call succeeds, carrying the processed image list. -/
def okEntry (describe : Region → Except Err (List Image)) (r : Region) :
    Option (Region × List Image) :=
  match describe r with
  | .ok imgs => some (r, processRegionImages imgs)
  | .error _ => none

/-- The accumulator entry contributed by one region: present exactly when
the regional call fails, carrying the provider error as returned. -/
def errEntry (describe : Region → Except Err (List Image)) (r : Region) :
    Option Err :=
  match describe r with
  | .ok _ => none
  | .error e => some e

lemma foldl_collectRegion_eq (describe : Region → Except Err (List Image))
    (regions : List Region) :
    ∀ (m : List (Region × List Image)) (es : List Err),
      regions.foldl (collectRegion describe) (m, es) =
        (m ++ regions.filterMap (okEntry describe),
         es ++ regions.filterMap (errEntry describe)) := by
  induction regions with
  | nil => intro m es; simp
  | cons r rs ih =>
    intro m es
    cases h : describe r with
    | ok imgs =>
      simp [collectRegion, h, okEntry, errEntry, List.filterMap_cons, ih]
    | error e =>
      simp [collectRegion, h, okEntry, errEntry, List.filterMap_cons, ih]

lemma multiImages_spec (describe : Region → Except Err (List Image))
    (regions : List Region) :
    MultiImages describe regions =
      (regions.filterMap (okEntry describe),
       regions.filterMap (errEntry describe)) := by
  simpa [MultiImages] using foldl_collectRegion_eq describe regions [] []

lemma map_fst_filterMap_okEntry (describe : Region → Except Err (List Image))
    (regions : List Region) :
    (regions.filterMap (okEntry describe)).map Prod.fst =
      regions.filter (fun r => (describe r).isOk) := by
  induction regions with
  | nil => simp
  | cons r rs ih =>
    cases h : describe r with
    | ok imgs => simp [okEntry, h, List.filter_cons, Except.isOk, Except.toBool, ih]
    | error e => simp [okEntry, h, List.filter_cons, Except.isOk, Except.toBool, ih]

lemma length_filterMap_okEntry (describe : Region → Except Err (List Image))
    (regions : List Region) :
    (regions.filterMap (okEntry describe)).length =
      regions.countP (fun r => (describe r).isOk) := by
  induction regions with
  | nil => simp
  | cons r rs ih =>
    cases h : describe r with
    | ok imgs => simp [okEntry, h, List.countP_cons, Except.isOk, Except.toBool, ih]
    | error e => simp [okEntry, h, List.countP_cons, Except.isOk, Except.toBool, ih]

lemma length_filterMap_errEntry (describe : Region → Except Err (List Image))
    (regions : List Region) :
    (regions.filterMap (errEntry describe)).length =
      regions.countP (fun r => !(describe r).isOk) := by
  induction regions with
  | nil => simp
  | cons r rs ih =>
    cases h : describe r with
    | ok imgs => simp [errEntry, h, List.countP_cons, Except.isOk, Except.toBool, ih]
    | error e => simp [errEntry, h, List.countP_cons, Except.isOk, Except.toBool, ih]

lemma countP_ok_add_countP_not_ok (describe : Region → Except Err (List Image))
    (regions : List Region) :
    regions.countP (fun r => (describe r).isOk) +
      regions.countP (fun r => !(describe r).isOk) = regions.length := by
  induction regions with
  | nil => simp
  | cons r rs ih =>
    cases h : (describe r).isOk <;>
      simp [List.countP_cons, h, ih] <;> omega

lemma lookup_filterMap_okEntry (describe : Region → Except Err (List Image))
    (regions : List Region) (r : Region) (imgs : List Image)
    (hmem : r ∈ regions) (hok : describe r = .ok imgs) :
    (regions.filterMap (okEntry describe)).lookup r =
      some (processRegionImages imgs) := by
  induction regions with
  | nil => cases hmem
  | cons r0 rs ih =>
    by_cases hr : r0 = r
    · subst hr
      simp [okEntry, hok, List.lookup]
    · have hmem' : r ∈ rs := by
        rcases List.mem_cons.mp hmem with h | h
        · exact absurd h.symm hr
        · exact h
      cases h0 : describe r0 with
      | ok imgs0 =>
        have hbeq : (r == r0) = false := beq_eq_false_iff_ne.mpr (Ne.symm hr)
        simp [okEntry, h0, List.lookup, hbeq, ih hmem']
      | error e =>
        simp [okEntry, h0, ih hmem']

/-! ## Concrete oracles used by the witnesses -/

/-- A fan-out environment in which every regional call succeeds with an
empty image list. -/
def allOkOracle : Region → Except Err (List Image) := fun _ => .ok []

/-- A fan-out environment in which the call for region `us-east-1`
succeeds and every other regional call fails. -/
def mixedOracle : Region → Except Err (List Image) := fun r =>
  if r = "us-east-1" then .ok [] else .error "request failed"

/-! ## Claims about `MultiImages` -/

/-- C1: for every region set with at least one region, a fan-out call in
which every regional `DescribeImages` call succeeds returns a result map
with exactly one key per region (so exactly as many keys as regions) and
a nil aggregated error. -/
theorem multiImages_all_success
    (describe : Region → Except Err (List Image)) (regions : List Region)
    (_hlen : 1 ≤ regions.length)
    (hok : ∀ r ∈ regions, (describe r).isOk = true) :
    (MultiImages describe regions).1.map Prod.fst = regions ∧
    (MultiImages describe regions).2 = [] := by
  rw [multiImages_spec]
  refine ⟨?_, ?_⟩
  · rw [map_fst_filterMap_okEntry]
    exact List.filter_eq_self.mpr hok
  · refine List.filterMap_eq_nil_iff.mpr ?_
    intro r hr
    have hthis := hok r hr
    cases h : describe r with
    | ok imgs => simp [errEntry, h]
    | error e =>
      rw [h] at hthis
      simp [Except.isOk, Except.toBool] at hthis

/-- Witness for C1 at a concrete two-region set where every call
succeeds. -/
theorem multiImages_all_success_witness :
    (MultiImages allOkOracle ["us-east-1", "eu-west-1"]).1.map Prod.fst =
        ["us-east-1", "eu-west-1"] ∧
    (MultiImages allOkOracle ["us-east-1", "eu-west-1"]).2 = [] :=
  multiImages_all_success allOkOracle ["us-east-1", "eu-west-1"]
    (by decide) (by intro r _; rfl)

/-- C2: when exactly `k ≥ 1` regional calls fail and the rest succeed,
the result map has exactly `|R| − k` keys and the aggregated error has
exactly `k` constituents. -/
theorem multiImages_partial_failure
    (describe : Region → Except Err (List Image)) (regions : List Region)
    (k : Nat)
    (hk : k = regions.countP (fun r => !(describe r).isOk))
    (hk1 : 1 ≤ k) :
    (MultiImages describe regions).1.length = regions.length - k ∧
    (MultiImages describe regions).2.length = k := by
  rw [multiImages_spec]
  subst hk
  constructor
  · rw [length_filterMap_okEntry]
    have h := countP_ok_add_countP_not_ok describe regions
    omega
  · exact length_filterMap_errEntry describe regions

/-- Witness for C2: two regions, one failing, one succeeding. -/
theorem multiImages_partial_failure_witness :
    (MultiImages mixedOracle ["us-east-1", "eu-west-1"]).1.length = 1 ∧
    (MultiImages mixedOracle ["us-east-1", "eu-west-1"]).2.length = 1 := by
  have h := multiImages_partial_failure mixedOracle ["us-east-1", "eu-west-1"]
    1 (by decide) (by decide)
  simpa using h

/-- C3: the failure of one region never suppresses the success of
another: each succeeding region appears in the result map with its
processed (sorted) image list, and a non-empty result map together with a
non-nil aggregated error is possible. -/
theorem multiImages_success_not_suppressed
    (describe : Region → Except Err (List Image)) (regions : List Region)
    (r : Region) (imgs : List Image)
    (hmem : r ∈ regions) (hok : describe r = .ok imgs) :
    (MultiImages describe regions).1.lookup r =
        some (processRegionImages imgs) ∧
    ∃ (d2 : Region → Except Err (List Image)) (rs2 : List Region),
      (MultiImages d2 rs2).1 ≠ [] ∧ (MultiImages d2 rs2).2 ≠ [] := by
  constructor
  · rw [multiImages_spec]
    exact lookup_filterMap_okEntry describe regions r imgs hmem hok
  · exact ⟨mixedOracle, ["us-east-1", "eu-west-1"], by decide, by decide⟩

/-- Witness for C3: the succeeding region keeps its entry although the
other region fails. -/
theorem multiImages_success_not_suppressed_witness :
    (MultiImages mixedOracle ["us-east-1", "eu-west-1"]).1.lookup "us-east-1" =
      some (processRegionImages []) :=
  (multiImages_success_not_suppressed mixedOracle ["us-east-1", "eu-west-1"]
    "us-east-1" [] (by decide) (by rfl)).1

/-- C4: the aggregated error is nil exactly when every regional call
succeeded, and every failing call contributes its error to the aggregate
(each constituent failure is enumerated). -/
theorem multiImages_error_nil_iff
    (describe : Region → Except Err (List Image)) (regions : List Region) :
    ((MultiImages describe regions).2 = [] ↔
        ∀ r ∈ regions, (describe r).isOk = true) ∧
    (∀ r ∈ regions, ∀ e, describe r = .error e →
        e ∈ (MultiImages describe regions).2) := by
  rw [multiImages_spec]
  constructor
  · rw [List.filterMap_eq_nil_iff]
    constructor
    · intro h r hr
      have hthis := h r hr
      cases hd : describe r with
      | ok imgs => simp [Except.isOk, Except.toBool, hd]
      | error e => simp [errEntry, hd] at hthis
    · intro h r hr
      have hthis := h r hr
      cases hd : describe r with
      | ok imgs => simp [errEntry, hd]
      | error e =>
        rw [hd] at hthis
        simp [Except.isOk, Except.toBool] at hthis
  · intro r hr e he
    exact List.mem_filterMap.mpr ⟨r, hr, by simp [errEntry, he]⟩

/-- Witness for C4: the error of the failing region is a constituent of
the aggregate. -/
theorem multiImages_error_nil_iff_witness :
    "request failed" ∈ (MultiImages mixedOracle ["us-east-1", "eu-west-1"]).2 :=
  (multiImages_error_nil_iff mixedOracle ["us-east-1", "eu-west-1"]).2
    "eu-west-1" (by decide) "request failed" (by rfl)

/-- C7: the aggregated error accumulator holds, for each failing region,
the provider error exactly as returned — no region identifier is attached
during accumulation. -/
theorem multiImages_errors_raw
    (describe : Region → Except Err (List Image)) (regions : List Region) :
    (MultiImages describe regions).2 =
      regions.filterMap (fun r =>
        match describe r with
        | .error e => some e
        | .ok _ => none) := by
  rw [multiImages_spec]
  have h : (fun r =>
      match describe r with
      | Except.error e => some e
      | Except.ok _ => none) = errEntry describe := by
    funext r
    cases hd : describe r <;> simp [errEntry, hd]
  rw [h]

/-- C8: the `MultiImages` method leaves the receiver unchanged, its
result does not depend on the `images` field of the receiver, a repeated
call yields the same freshly built result, and the result is exactly the
fan-out over the regions of the registry. -/
theorem multiImagesM_frame (describe : Region → Except Err (List Image))
    (a : AwsImagesSt) :
    ((a.multiImagesM describe).1 = a) ∧
    (∀ imgs2 : List (Region × List Image),
        (AwsImagesSt.multiImagesM describe { a with images := imgs2 }).2 =
          (a.multiImagesM describe).2) ∧
    (((a.multiImagesM describe).1.multiImagesM describe).2 =
        (a.multiImagesM describe).2) ∧
    ((a.multiImagesM describe).2 = MultiImages describe a.services.regions) :=
  ⟨rfl, fun _ => rfl, rfl, rfl⟩

/-! ## Claim about the per-region sort -/

/-- C5: the image list stored for a successful region is sorted ascending
by creation timestamp (as a permutation of the returned list), and a list
of length zero or one is stored unchanged without invoking the sort. -/
theorem processRegionImages_sorted (l : List Image) :
    List.Pairwise timeLe (processRegionImages l) ∧
    (processRegionImages l).Perm l ∧
    (l.length ≤ 1 → processRegionImages l = l) := by
  refine ⟨?_, ?_, ?_⟩
  · by_cases h : 1 < l.length
    · rw [processRegionImages, if_pos h, sortByTime]
      exact List.sorted_insertionSort timeLe l
    · rw [processRegionImages, if_neg h]
      match l with
      | [] => exact List.Pairwise.nil
      | [a] => simp
      | a :: b :: t => simp at h
  · by_cases h : 1 < l.length
    · rw [processRegionImages, if_pos h, sortByTime]
      exact List.perm_insertionSort timeLe l
    · rw [processRegionImages, if_neg h]
  · intro hle
    have h : ¬ 1 < l.length := by omega
    rw [processRegionImages, if_neg h]

/-- Witness for C5: a singleton list is left untouched, and the list with
timestamps [3, 1, 2] is stored as [1, 2, 3]. -/
theorem processRegionImages_sorted_witness :
    processRegionImages [Image.mk "ami-x" 7] = [Image.mk "ami-x" 7] ∧
    processRegionImages
        [Image.mk "ami-c" 3, Image.mk "ami-a" 1, Image.mk "ami-b" 2] =
      [Image.mk "ami-a" 1, Image.mk "ami-b" 2, Image.mk "ami-c" 3] :=
  ⟨(processRegionImages_sorted [Image.mk "ami-x" 7]).2.2 (by decide),
   by decide⟩

/-! ## Claim about `New` -/

/-- C6: `New` returns a configuration error exactly when one of the
region, access-key or secret-key fields is empty, and in that case the
result does not depend on the registry builder, i.e. the error is raised
before any regional client is built. -/
theorem new_config_validation (build : AwsConfig → MultiRegionReg)
    (conf : AwsConfig) :
    ((New build conf).isOk = false ↔
        (conf.region = "" ∨ conf.accessKey = "" ∨ conf.secretKey = "")) ∧
    (∀ build2 : AwsConfig → MultiRegionReg,
        (conf.region = "" ∨ conf.accessKey = "" ∨ conf.secretKey = "") →
          New build conf = New build2 conf) := by
  constructor
  · by_cases h1 : conf.region = "" <;> by_cases h2 : conf.accessKey = "" <;>
      by_cases h3 : conf.secretKey = "" <;>
      simp [New, h1, h2, h3, Except.isOk, Except.toBool]
  · intro build2 h
    by_cases h1 : conf.region = ""
    · simp [New, h1]
    · by_cases h2 : conf.accessKey = ""
      · simp [New, h1, h2]
      · by_cases h3 : conf.secretKey = ""
        · simp [New, h1, h2, h3]
        · rcases h with h | h | h <;> contradiction

/-- Witness for C6: an empty access key with a non-empty secret key and a
non-empty region makes `New` fail. -/
theorem new_config_validation_witness :
    (New (fun _ => MultiRegionReg.mk [])
        (AwsConfig.mk "us-east-1" "" "" "verysecret")).isOk = false :=
  (new_config_validation (fun _ => MultiRegionReg.mk [])
      (AwsConfig.mk "us-east-1" "" "" "verysecret")).1.mpr
    (Or.inr (Or.inl rfl))

/-! ## Claims about `Help` -/

/-- C9: for every command other than `modify`, `delete`, `list` and
`copy`, `Help` returns the literal unknown-command string followed by the
command name (and, being a total function, never fails). -/
theorem help_unknown_command (modifyMsg deleteMsg copyMsg command : String)
    (h1 : command ≠ "modify") (h2 : command ≠ "delete")
    (h3 : command ≠ "list") (h4 : command ≠ "copy") :
    Help modifyMsg deleteMsg copyMsg command =
      "no help found for command " ++ command := by
  simp [Help, h1, h2, h3, h4]

/-- Witness for C9 at the unknown command `status`. -/
theorem help_unknown_command_witness :
    Help "m" "d" "c" "status" = "no help found for command " ++ "status" :=
  help_unknown_command "m" "d" "c" "status"
    (by decide) (by decide) (by decide) (by decide)

set_option maxRecDepth 8192 in
/-- C10: the help text of each of the four known commands ends with the
shared global-options block, which lists the `-access-key`, `-secret-key`,
`-region` and `-region-exclude` flags, while the unknown-command string is
never of the form prefix-plus-global-block (the default branch returns
before the global text is appended). -/
theorem help_known_commands_global (modifyMsg deleteMsg copyMsg : String) :
    (∃ p, Help modifyMsg deleteMsg copyMsg "modify" = p ++ globalHelp) ∧
    (∃ p, Help modifyMsg deleteMsg copyMsg "delete" = p ++ globalHelp) ∧
    (∃ p, Help modifyMsg deleteMsg copyMsg "list" = p ++ globalHelp) ∧
    (∃ p, Help modifyMsg deleteMsg copyMsg "copy" = p ++ globalHelp) ∧
    "-access-key".data <:+: globalHelp.data ∧
    "-secret-key".data <:+: globalHelp.data ∧
    "-region".data <:+: globalHelp.data ∧
    "-region-exclude".data <:+: globalHelp.data ∧
    (∀ p : String,
      Help modifyMsg deleteMsg copyMsg "version" ≠ p ++ globalHelp) := by
  refine ⟨⟨modifyMsg, by simp [Help]⟩, ⟨deleteMsg, by simp [Help]⟩,
    ⟨listHelp, by simp [Help]⟩, ⟨copyMsg, by simp [Help]⟩,
    by decide, by decide, by decide, by decide, ?_⟩
  intro p hp
  have h1 : Help modifyMsg deleteMsg copyMsg "version" =
      "no help found for command " ++ "version" := by simp [Help]
  have h2 : ("no help found for command " ++ "version").length =
      (p ++ globalHelp).length := by rw [← h1, hp]
  rw [String.length_append, String.length_append] at h2
  have h3 : "no help found for command ".length = 26 := by decide
  have h4 : "version".length = 7 := by decide
  have h5 : 33 < globalHelp.length := by decide
  omega

/-- Witness for C10: the unknown-command reply for `version` is not any
prefix followed by the global block. -/
theorem help_known_commands_global_witness :
    Help "m" "d" "c" "version" ≠ "pre" ++ globalHelp :=
  (help_known_commands_global "m" "d" "c").2.2.2.2.2.2.2.2 "pre"

end Awsimages
